import Mathlib

/-!
Verification of the iklog parser (`ikLogParser.py`).

The Python source is shallowly embedded below. Strings are modelled as
Lean `String`s / `List Char`; Python exceptions are modelled with
`Except PyErr`; Python's arbitrary-precision integers are `Int`; the
value of a numeric literal is rounded to an IEEE-754 binary64 double
(modelled exactly with integer arithmetic) as Python float() does.
-/

/-- The whitespace characters removed by Python's `str.strip()`. -/
def isPySpace (c : Char) : Bool :=
  c = ' ' || c = '\t' || c = '\n' || c = '\r' || c = '\x0b' || c = '\x0c'

/-- Python `str.strip()` on a character list. -/
def pyStrip (cs : List Char) : List Char :=
  ((cs.dropWhile isPySpace).reverse.dropWhile isPySpace).reverse

/-- Python `str.strip(chars)`: remove the given characters from both ends. -/
def pyStripSet (bad : List Char) (cs : List Char) : List Char :=
  ((cs.dropWhile (bad.contains ·)).reverse.dropWhile (bad.contains ·)).reverse

/-- Python `str.split(d)` for a single-character separator: `n` separator
occurrences yield `n + 1` pieces, empty pieces included. -/
def pySplitCh (d : Char) : List Char → List (List Char)
  | [] => [[]]
  | c :: cs =>
    match pySplitCh d cs with
    | [] => [[]]
    | p :: ps => if c = d then [] :: p :: ps else (c :: p) :: ps

/-- Python `str.strip()` on `String`. -/
def pyStripStr (s : String) : String :=
  String.mk (pyStrip s.data)

/-- Python `str.split(d)` on `String`. -/
def pySplitStr (s : String) (d : Char) : List String :=
  (pySplitCh d s.data).map String.mk

/-- Python `s.startswith(p)`. -/
def pyStarts (s p : String) : Bool :=
  p.data.isPrefixOf s.data

/-- `GetT3RequestInfo`'s character scan (source lines 32-50): an
accumulator `entry`, the flushed tokens `sep`, and the `inside_brace`
flag, updated exactly as the Python loop does. -/
def tokenizeGo (d : Char) : List Char → List String → List Char → Bool → List String
  | [], sep, entry, _ => if entry.isEmpty then sep else sep ++ [String.mk entry]
  | c :: cs, sep, entry, inside =>
    if c = '{' then tokenizeGo d cs sep (entry ++ [c]) true
    else if c = '}' then tokenizeGo d cs sep (entry ++ [c]) false
    else if c = d ∧ inside = false then tokenizeGo d cs (sep ++ [String.mk entry]) [] inside
    else tokenizeGo d cs sep (entry ++ [c]) inside

/-- `GetT3RequestInfo(string, delimiter)` from the source: brace-aware
split of `string` on `delimiter`. -/
def GetT3RequestInfo (s : String) (d : Char) : List String :=
  tokenizeGo d s.data [] [] false

/-- Well-formed brace structure: `balNN depth cs` holds when `cs`, read
from a current nesting depth of `depth`, has balanced and non-nested
braces (depth never exceeds 1, never goes negative, and ends at 0). -/
def balNN : Nat → List Char → Bool
  | 0, [] => true
  | _ + 1, [] => false
  | 0, c :: cs => if c = '{' then balNN 1 cs else if c = '}' then false else balNN 0 cs
  | 1, c :: cs => if c = '{' then false else if c = '}' then balNN 0 cs else balNN 1 cs
  | _ + 2, _ :: _ => false

/-- Specification-side splitter, following the spec's words: split at
every delimiter occurrence outside braces ("outside" read as brace
nesting depth zero), keep brace-enclosed spans verbatim. -/
def specSplitGo (d : Char) : List Char → List String → List Char → Nat → List String
  | [], sep, entry, _ => if entry.isEmpty then sep else sep ++ [String.mk entry]
  | c :: cs, sep, entry, depth =>
    if c = '{' then specSplitGo d cs sep (entry ++ [c]) (depth + 1)
    else if c = '}' then specSplitGo d cs sep (entry ++ [c]) (depth - 1)
    else if c = d ∧ depth = 0 then specSplitGo d cs (sep ++ [String.mk entry]) [] depth
    else specSplitGo d cs sep (entry ++ [c]) depth

/-- Specification-side tokenizer (see `specSplitGo`). -/
def specSplit (s : String) (d : Char) : List String :=
  specSplitGo d s.data [] [] 0

/-- The error conditions the embedded code can raise.  `malformedList`
and `malformedNumber` are the decoder's two float/int parse failure
sites (`ValueError` in Python); `overflowError` is `int(...)` applied
to an infinite float and `valueError` is `int(...)` applied to a NaN or
a list `index` miss; `keyError`, `indexError` and `typeError` model the
corresponding Python exceptions in `GetLetyInfo`. -/
inductive PyErr where
  | malformedList
  | malformedNumber
  | keyError
  | valueError
  | indexError
  | typeError
  | overflowError
deriving DecidableEq, Repr

/-- A decoded field value: Python `int`, `list` of `int`, or `str`. -/
inductive PyVal where
  | int (n : Int)
  | intList (l : List Int)
  | str (s : String)
deriving DecidableEq, Repr

/-- Continuation of a digit group after its first digit, per the
Python numeric-literal grammar: digits, with single underscores
allowed only directly between two digits.  Returns the digits
collected (underscores removed) and the unconsumed rest. -/
def digitPartGo : List Char → List Char × List Char
  | [] => ([], [])
  | '_' :: c :: r =>
    if c.isDigit then
      let p := digitPartGo r
      (c :: p.1, p.2)
    else ([], '_' :: c :: r)
  | c :: r =>
    if c.isDigit then
      let p := digitPartGo r
      (c :: p.1, p.2)
    else ([], c :: r)

/-- A digit group of the Python numeric-literal grammar:
`digit (["_"] digit)*`.  `none` when the input does not start with a
digit. -/
def digitPart (cs : List Char) : Option (List Char × List Char) :=
  match cs with
  | c :: r =>
    if c.isDigit then
      let p := digitPartGo r
      some (c :: p.1, p.2)
    else none
  | [] => none

/-- Numeric value of an already-validated digit string. -/
def digitsNat (ds : List Char) : Nat :=
  ds.foldl (fun a c => a * 10 + (c.toNat - 48)) 0

/-- Python `int(s)` for base-10 literals: surrounding whitespace is
stripped, an optional sign precedes a digit group (underscores between
digits allowed, as Python accepts). -/
def parsePyInt (cs : List Char) : Option Int :=
  let t := pyStrip cs
  let sr : Bool × List Char :=
    match t with
    | '+' :: r => (false, r)
    | '-' :: r => (true, r)
    | r => (false, r)
  match digitPart sr.2 with
  | some p =>
    if p.2.isEmpty then
      some (if sr.1 then -(Int.ofNat (digitsNat p.1)) else Int.ofNat (digitsNat p.1))
    else none
  | none => none

/-- A parsed literal's exact value `numerator / denominator` with the
decimal exponent applied (denominator positive). -/
def applyExp (m : Nat × Nat) (e : Int) : Nat × Nat :=
  match e with
  | Int.ofNat n => (m.1 * 10 ^ n, m.2)
  | Int.negSucc n => (m.1, m.2 * 10 ^ (n + 1))

/-- Exponent suffix of a float literal: empty, or `e`/`E`, an optional
sign, and a digit group consuming the whole rest. -/
def expPart : List Char → Option Int
  | [] => some 0
  | c :: r =>
    if c = 'e' ∨ c = 'E' then
      let sr : Bool × List Char :=
        match r with
        | '+' :: t => (false, t)
        | '-' :: t => (true, t)
        | t => (false, t)
      match digitPart sr.2 with
      | some p =>
        if p.2.isEmpty then
          some (if sr.1 then -(Int.ofNat (digitsNat p.1)) else Int.ofNat (digitsNat p.1))
        else none
      | none => none
    else none

/-- Unsigned mantissa-and-exponent part of a float literal:
`digits [. [digits]] [exp]` or `. digits [exp]`, valued as the exact
fraction the literal denotes. -/
def floatCore (cs : List Char) : Option (Nat × Nat) :=
  let ipr : List Char × List Char :=
    match digitPart cs with
    | some p => p
    | none => ([], cs)
  match ipr.2 with
  | '.' :: r2 =>
    let fpr : List Char × List Char :=
      match digitPart r2 with
      | some p => p
      | none => ([], r2)
    if ipr.1.isEmpty && fpr.1.isEmpty then none
    else
      (expPart fpr.2).map (fun e =>
        applyExp ((digitsNat ipr.1 * 10 ^ fpr.1.length + digitsNat fpr.1, 10 ^ fpr.1.length)) e)
  | _ =>
    if ipr.1.isEmpty then none
    else (expPart ipr.2).map (fun e => applyExp ((digitsNat ipr.1, 1)) e)

/-- An IEEE-754 binary64 value as Python `float()` produces it: a
finite value `m * 2 ^ e` (with `|m| < 2 ^ 53` and `e ≥ -1074`), an
infinity, or a NaN. -/
inductive PyFloat where
  | finite (m : Int) (e : Int)
  | inf (neg : Bool)
  | nan
deriving DecidableEq, Repr

/-- Floor of the base-2 logarithm (fuel-driven so the kernel can
evaluate it): `natLog2Go fuel n` halves `n` at most `fuel` times. -/
def natLog2Go : Nat → Nat → Nat
  | 0, _ => 0
  | fuel + 1, n => if 2 ≤ n then natLog2Go fuel (n / 2) + 1 else 0

/-- Floor of the base-2 logarithm of a positive number. -/
def natLog2 (n : Nat) : Nat :=
  natLog2Go n n

/-- Ceiling of the base-2 logarithm: the smallest `j` with
`n ≤ 2 ^ j`. -/
def clog2 (n : Nat) : Nat :=
  if n ≤ 1 then 0 else natLog2 (n - 1) + 1

/-- Floor of the base-2 logarithm of the fraction `a / b`
(`a, b ≥ 1`): the unique `k` with `2 ^ k ≤ a / b < 2 ^ (k + 1)`. -/
def floorLog2Frac (a b : Nat) : Int :=
  if b ≤ a then Int.ofNat (natLog2 (a / b))
  else -(Int.ofNat (clog2 ((b + a - 1) / a)))

/-- Round the exact fraction `a / b` (`b > 0`) to the nearest IEEE-754
binary64 value, ties to even: the result is `(m, e)` with value
`m * 2 ^ e`, `m < 2 ^ 53` and `e ≥ -1074` (subnormals clamped to
`e = -1074`), or `none` when the rounded value overflows to
infinity (at or beyond `2 ^ 1024`). -/
def roundDouble (a b : Nat) : Option (Nat × Int) :=
  if a = 0 then some (0, 0)
  else
    let k := floorLog2Frac a b
    let e := max (k - 52) (-1074)
    let nd : Nat × Nat :=
      match e with
      | Int.ofNat t => (a, b * 2 ^ t)
      | Int.negSucc t => (a * 2 ^ (t + 1), b)
    let q := nd.1 / nd.2
    let r := nd.1 % nd.2
    let m :=
      if 2 * r < nd.2 then q
      else if nd.2 < 2 * r then q + 1
      else if q % 2 = 0 then q else q + 1
    let me : Nat × Int := if m = 2 ^ 53 then (2 ^ 52, e + 1) else (m, e)
    if 972 ≤ me.2 then none else some me

/-- Python `float(s)`: strip whitespace, take an optional sign, accept
`inf`/`infinity`/`nan` case-insensitively, otherwise parse the decimal
literal (underscore digit groups included) and round its exact value
to the nearest binary64 double, overflowing to infinity.  (ASCII
literals; Python additionally accepts non-ASCII decimal digits.) -/
def parsePyFloat (cs : List Char) : Option PyFloat :=
  let t := pyStrip cs
  let sr : Bool × List Char :=
    match t with
    | '+' :: r => (false, r)
    | '-' :: r => (true, r)
    | r => (false, r)
  let low := sr.2.map Char.toLower
  if low = ['i', 'n', 'f'] ∨ low = ['i', 'n', 'f', 'i', 'n', 'i', 't', 'y'] then
    some (PyFloat.inf sr.1)
  else if low = ['n', 'a', 'n'] then some PyFloat.nan
  else
    match floatCore sr.2 with
    | none => none
    | some ab =>
      match roundDouble ab.1 ab.2 with
      | none => some (PyFloat.inf sr.1)
      | some me =>
        some (PyFloat.finite (if sr.1 then -(Int.ofNat me.1) else Int.ofNat me.1) me.2)

/-- Truncation toward zero of the finite double `m * 2 ^ e`, the
behaviour of Python `int` on a finite float. -/
def pyTrunc (m : Int) (e : Int) : Int :=
  match e with
  | Int.ofNat t => m * 2 ^ t
  | Int.negSucc t => Int.tdiv m (Int.ofNat (2 ^ (t + 1)))

/-- Python `int(f)` on a float: truncate a finite value toward zero,
raise `OverflowError` on an infinity and `ValueError` on a NaN. -/
def pyIntOfFloat : PyFloat → Except PyErr Int
  | PyFloat.finite m e => Except.ok (pyTrunc m e)
  | PyFloat.inf _ => Except.error PyErr.overflowError
  | PyFloat.nan => Except.error PyErr.valueError

instance {ε α : Type} [DecidableEq ε] [DecidableEq α] : DecidableEq (Except ε α) := fun x y =>
  match x, y with
  | Except.ok a, Except.ok b =>
    if h : a = b then isTrue (by rw [h]) else isFalse (fun hc => by injection hc; exact h (by assumption))
  | Except.error a, Except.error b =>
    if h : a = b then isTrue (by rw [h]) else isFalse (fun hc => by injection hc; exact h (by assumption))
  | Except.ok _, Except.error _ => isFalse (fun hc => by injection hc)
  | Except.error _, Except.ok _ => isFalse (fun hc => by injection hc)

/-- Python `s.split("=", 1)`: the pieces before and after the first
`'='`, or `none` when the string has no `'='`. -/
def splitFirstEq : List Char → Option (List Char × List Char)
  | [] => none
  | c :: cs =>
    if c = '=' then some ([], cs)
    else (splitFirstEq cs).map (fun p => (c :: p.1, p.2))

/-- Python `s.startswith(c)` for one character. -/
def headIs (c : Char) : List Char → Bool
  | [] => false
  | x :: _ => x = c

/-- Python `s.endswith(c)` for one character. -/
def lastIs (c : Char) (cs : List Char) : Bool :=
  cs.getLast? == some c

/-- The value-classification step of `OrganizeT3Info` (source lines
74-85), applied to the stripped right-hand side of a token: a
brace-enclosed space-separated integer list, a quote-delimited string
kept verbatim (quotes retained), or a numeric scalar decoded by
float-then-truncate. -/
def decodeValue (v : List Char) : Except PyErr PyVal :=
  if headIs '{' v && lastIs '}' v then
    match (pySplitCh ' ' (pyStrip ((v.drop 1).dropLast))).mapM parsePyInt with
    | some l => Except.ok (PyVal.intList l)
    | none => Except.error PyErr.malformedList
  else if headIs '"' v && lastIs '"' v then
    Except.ok (PyVal.str (String.mk v))
  else
    match parsePyFloat v with
    | some f => (pyIntOfFloat f).map PyVal.int
    | none => Except.error PyErr.malformedNumber

/-- Python dict assignment `info[key] = value`: overwrite in place if
the key exists, else append (insertion order preserved). -/
def dictInsert (info : List (String × PyVal)) (k : String) (v : PyVal) : List (String × PyVal) :=
  match info with
  | [] => [(k, v)]
  | (k0, v0) :: rest => if k0 = k then (k, v) :: rest else (k0, v0) :: dictInsert rest k v

/-- One iteration of `OrganizeT3Info`'s loop (source lines 69-87):
tokens without `'='` are skipped, others are split at the first `'='`;
the raw left side is the key, the stripped right side is classified by
`decodeValue`. -/
def organizeStep (info : List (String × PyVal)) (s : String) : Except PyErr (List (String × PyVal)) :=
  match splitFirstEq s.data with
  | none => Except.ok info
  | some kv => (decodeValue (pyStrip kv.2)).map (fun v => dictInsert info (String.mk kv.1) v)

/-- `OrganizeT3Info(t3request)` from the source: fold the token list
into a key/value mapping, aborting at the first conversion error. -/
def OrganizeT3Info (t3request : List String) : Except PyErr (List (String × PyVal)) :=
  t3request.foldlM organizeStep []

/-- Python `data[k]` on the decoded mapping: `KeyError` when absent. -/
def dictGet (data : List (String × PyVal)) (k : String) : Except PyErr PyVal :=
  match List.lookup k data with
  | some v => Except.ok v
  | none => Except.error PyErr.keyError

/-- Python `l.index(x)` on an `int` list via `data[k]`: `TypeError` when
the stored value is not a list, `ValueError` when `x` is absent, else
the first index of `x`. -/
def listIndexOfVal (v : PyVal) (x : Int) : Except PyErr Nat :=
  match v with
  | PyVal.intList l => if l.contains x then Except.ok (l.indexOf x) else Except.error PyErr.valueError
  | _ => Except.error PyErr.typeError

/-- Python `data[k][i]` on an `int` list: `TypeError` when the stored
value is not an `int` list (an `int` is not subscriptable; indexing a
`str` would not produce an `int`), `IndexError` when `i` is out of
range. -/
def listAtVal (v : PyVal) (i : Nat) : Except PyErr Int :=
  match v with
  | PyVal.intList l =>
    match l[i]? with
    | some x => Except.ok x
    | none => Except.error PyErr.indexError
  | _ => Except.error PyErr.typeError

/-- The stored value as a scalar `int` (`refSecond` / `refuSecond`; a
non-`int` value there is modelled as a type error since the projected
record is a 4-tuple of integers). -/
def scalarVal (v : PyVal) : Except PyErr Int :=
  match v with
  | PyVal.int n => Except.ok n
  | _ => Except.error PyErr.typeError

/-- `GetLetyInfo(t3info, LetyID)` from the source (lines 111-121):
decode the token list, find `LetyID`'s first index in `addresses`, and
project `(refSecond, refuSecond, offsets[ind], window[ind])`, in the
source's evaluation order. -/
def GetLetyInfo (t3info : List String) (LetyID : Int) : Except PyErr (Int × Int × Int × Int) := do
  let data ← OrganizeT3Info t3info
  let ind ← listIndexOfVal (← dictGet data "addresses") LetyID
  let offset ← listAtVal (← dictGet data "offsets") ind
  let window ← listAtVal (← dictGet data "window") ind
  let gpsSec ← scalarVal (← dictGet data "refSecond")
  let gpsMicroSec ← scalarVal (← dictGet data "refuSecond")
  Except.ok (gpsSec, gpsMicroSec, offset, window)

/-- One iteration of `ParseIkLog`'s per-line loop (source lines
161-189): split the stripped line on pipes, require exactly 6 columns
one of which is `"IkT3"`, tokenize column 4, find the first token
starting with `addresses=`, and only when the target ID's decimal
rendering occurs among the brace-stripped pieces call `GetLetyInfo`.
`Except.ok none` is a silently skipped line; `some` carries the written
record. -/
def processLine (line : String) (LetyID : Int) : Except PyErr (Option (Int × Int × Int × Int)) :=
  match pySplitStr (pyStripStr line) '|' with
  | [f0, f1, f2, f3, f4, f5] =>
    if ([f0, f1, f2, f3, f4, f5].contains "IkT3") = false then Except.ok none
    else
      let t3info := GetT3RequestInfo f4 ' '
      let ae := ((t3info.find? (fun s => pyStarts s "addresses=")).getD "")
      if ae = "" then Except.ok none
      else
        match pySplitCh '=' ae.data with
        | _ :: second :: _ =>
          let addresses := (pySplitCh ' ' (pyStripSet ['{', '}'] second)).map String.mk
          if addresses.contains (toString LetyID) = false then Except.ok none
          else (GetLetyInfo t3info LetyID).map some
        | _ => Except.error PyErr.indexError
  | _ => Except.ok none

theorem splitFirstEq_append (pre post : List Char) (h : '=' ∉ pre) :
    splitFirstEq (pre ++ '=' :: post) = some (pre, post) := by
  induction pre with
  | nil => simp [splitFirstEq]
  | cons c cs ih =>
    rw [List.mem_cons, not_or] at h
    have hc : ¬ (c = '=') := fun hc => h.1 hc.symm
    simp [splitFirstEq, hc, ih h.2]

theorem pyStrip_of_all_space (w : List Char) (hw : w.all isPySpace = true) :
    pyStrip w = [] := by
  have h1 : w.dropWhile isPySpace = [] := by
    rw [List.dropWhile_eq_nil_iff]
    intro x hx
    exact List.all_eq_true.mp hw x hx
  simp [pyStrip, h1]

theorem tokenizeGo_step_inside (d c : Char) (cs : List Char) (sep : List String)
    (entry : List Char) (h : ¬ (c = '}')) :
    tokenizeGo d (c :: cs) sep entry true = tokenizeGo d cs sep (entry ++ [c]) true := by
  by_cases h1 : c = '{'
  · simp [tokenizeGo, h1]
  · simp [tokenizeGo, h1, h]

theorem tokenizeGo_inside_no_close (d : Char) :
    ∀ (cs : List Char) (sep : List String) (entry : List Char),
      '}' ∉ cs →
      tokenizeGo d cs sep entry true =
        (if (entry ++ cs).isEmpty then sep else sep ++ [String.mk (entry ++ cs)]) := by
  intro cs
  induction cs with
  | nil => intro sep entry _; simp [tokenizeGo]
  | cons c rest ih =>
    intro sep entry h
    rw [List.mem_cons, not_or] at h
    have hc : ¬ (c = '}') := fun hc => h.1 hc.symm
    rw [tokenizeGo_step_inside d c rest sep entry hc, ih sep (entry ++ [c]) h.2]
    simp

theorem tokenizeGo_eq_specSplitGo (d : Char) :
    ∀ (cs : List Char) (sep : List String) (entry : List Char) (n : Nat),
      n ≤ 1 → balNN n cs = true →
      tokenizeGo d cs sep entry (n == 1) = specSplitGo d cs sep entry n := by
  intro cs
  induction cs with
  | nil => intro sep entry n _ _; rfl
  | cons c rest ih =>
    intro sep entry n hn hb
    interval_cases n
    · by_cases h1 : c = '{'
      · subst h1
        simp only [balNN, if_pos rfl] at hb
        simp only [tokenizeGo, specSplitGo, if_pos rfl]
        exact ih sep (entry ++ ['{']) 1 (by omega) hb
      · by_cases h2 : c = '}'
        · subst h2
          simp [balNN] at hb
        · have hb2 : balNN 0 rest = true := by
            simpa [balNN, h1, h2] using hb
          by_cases h3 : c = d
          · simp only [tokenizeGo, specSplitGo, if_neg h1, if_neg h2]
            have hL : c = d ∧ ((0 : Nat) == 1) = false := ⟨h3, rfl⟩
            have hR : c = d ∧ True := ⟨h3, trivial⟩
            rw [if_pos hL, if_pos hR]
            exact ih (sep ++ [String.mk entry]) [] 0 (by omega) hb2
          · simp only [tokenizeGo, specSplitGo, if_neg h1, if_neg h2]
            have hL : ¬ (c = d ∧ ((0 : Nat) == 1) = false) := fun hc => h3 hc.1
            have hR : ¬ (c = d ∧ True) := fun hc => h3 hc.1
            rw [if_neg hL, if_neg hR]
            exact ih sep (entry ++ [c]) 0 (by omega) hb2
    · by_cases h1 : c = '{'
      · subst h1
        simp [balNN] at hb
      · by_cases h2 : c = '}'
        · subst h2
          simp only [balNN, if_neg (by decide : ¬ ('}' = '{')), if_pos rfl] at hb
          simp only [tokenizeGo, specSplitGo, if_neg (by decide : ¬ ('}' = '{')), if_pos rfl]
          exact ih sep (entry ++ ['}']) 0 (by omega) hb
        · have hb2 : balNN 1 rest = true := by
            simpa [balNN, h1, h2] using hb
          simp only [tokenizeGo, specSplitGo, if_neg h1, if_neg h2]
          have hL : ¬ (c = d ∧ ((1 : Nat) == 1) = false) := fun hc => by
            exact absurd hc.2 (by decide)
          have hR : ¬ (c = d ∧ (1 : Nat) = 0) := fun hc => Nat.one_ne_zero hc.2
          rw [if_neg hL, if_neg hR]
          exact ih sep (entry ++ [c]) 1 (by omega) hb2

theorem exBindOk {α β : Type} (a : α) (f : α → Except PyErr β) :
    (Except.ok a >>= f) = f a := rfl

theorem exBindErr {α β : Type} (e : PyErr) (f : α → Except PyErr β) :
    ((Except.error e : Except PyErr α) >>= f) = Except.error e := rfl

/-- C3: for every decoded record whose `addresses` sequence contains the
target ID first at index `i`, with `offsets` and `window` long enough,
`GetLetyInfo` returns the projection
`(refSecond, refuSecond, offsets[i], window[i])`. -/
theorem C3_projection_returns_tuple (t3info : List String) (LetyID : Int)
    (data : List (String × PyVal)) (A O W : List Int) (rs rus : Int) (i : Nat)
    (hdec : OrganizeT3Info t3info = Except.ok data)
    (hA : List.lookup "addresses" data = some (PyVal.intList A))
    (hO : List.lookup "offsets" data = some (PyVal.intList O))
    (hW : List.lookup "window" data = some (PyVal.intList W))
    (hrs : List.lookup "refSecond" data = some (PyVal.int rs))
    (hrus : List.lookup "refuSecond" data = some (PyVal.int rus))
    (hmem : A.contains LetyID = true)
    (hidx : A.indexOf LetyID = i)
    (hiO : i < O.length) (hiW : i < W.length) :
    GetLetyInfo t3info LetyID = Except.ok (rs, rus, O.get ⟨i, hiO⟩, W.get ⟨i, hiW⟩) := by
  simp only [GetLetyInfo, hdec, exBindOk, dictGet, hA, hO, hW, hrs, hrus,
    listIndexOfVal, hmem, if_true, hidx, listAtVal, scalarVal,
    List.getElem?_eq_getElem hiO, List.getElem?_eq_getElem hiW, List.get_eq_getElem]

theorem GetLetyInfo_short_arrays (t3info : List String) (LetyID : Int)
    (data : List (String × PyVal)) (A O W : List Int) (i : Nat)
    (hdec : OrganizeT3Info t3info = Except.ok data)
    (hA : List.lookup "addresses" data = some (PyVal.intList A))
    (hO : List.lookup "offsets" data = some (PyVal.intList O))
    (hW : List.lookup "window" data = some (PyVal.intList W))
    (hmem : A.contains LetyID = true)
    (hidx : A.indexOf LetyID = i)
    (hshort : O.length ≤ i ∨ W.length ≤ i) :
    GetLetyInfo t3info LetyID = Except.error PyErr.indexError := by
  rcases Nat.lt_or_ge i O.length with h2 | h2
  · have hWs : W.length ≤ i := by
      rcases hshort with h | h
      · omega
      · exact h
    simp only [GetLetyInfo, hdec, exBindOk, dictGet, hA, hO, hW,
      listIndexOfVal, hmem, if_true, hidx, listAtVal,
      List.getElem?_eq_getElem h2, List.getElem?_eq_none hWs, exBindErr]
  · simp only [GetLetyInfo, hdec, exBindOk, dictGet, hA, hO,
      listIndexOfVal, hmem, if_true, hidx, listAtVal,
      List.getElem?_eq_none h2, exBindErr]

theorem C3_witness :
    GetLetyInfo ["addresses=\x7b12 97 33\x7d", "offsets=\x7b1 2 3\x7d",
      "window=\x7b0 5 0\x7d", "refSecond=1000", "refuSecond=200"] 97 =
      Except.ok (1000, 200, 2, 5) :=
  C3_projection_returns_tuple _ 97
    [("addresses", PyVal.intList [12, 97, 33]), ("offsets", PyVal.intList [1, 2, 3]),
      ("window", PyVal.intList [0, 5, 0]), ("refSecond", PyVal.int 1000),
      ("refuSecond", PyVal.int 200)]
    [12, 97, 33] [1, 2, 3] [0, 5, 0] 1000 200 1
    (by decide) (by decide) (by decide) (by decide) (by decide) (by decide)
    (by decide) (by decide) (by decide) (by decide)

/-- C8: when the target ID occurs in `addresses` at (first) index `i`
but `offsets` or `window` is shorter than `i + 1`, the projection fails
with the `IndexError`-class condition, and a pipeline line hitting this
propagates the error instead of silently truncating. -/
theorem C8_short_arrays_raise_index_error :
    (∀ (t3info : List String) (LetyID : Int) (data : List (String × PyVal))
        (A O W : List Int) (i : Nat),
        OrganizeT3Info t3info = Except.ok data →
        List.lookup "addresses" data = some (PyVal.intList A) →
        List.lookup "offsets" data = some (PyVal.intList O) →
        List.lookup "window" data = some (PyVal.intList W) →
        A.contains LetyID = true →
        A.indexOf LetyID = i →
        O.length ≤ i ∨ W.length ≤ i →
        GetLetyInfo t3info LetyID = Except.error PyErr.indexError) ∧
    processLine
      "a|IkT3|b|msg|addresses=\x7b12 97\x7d offsets=\x7b1\x7d window=\x7b3 4\x7d refSecond=5 refuSecond=6|z"
      97 = Except.error PyErr.indexError :=
  ⟨fun t3info LetyID data A O W i hdec hA hO hW hmem hidx hshort =>
    GetLetyInfo_short_arrays t3info LetyID data A O W i hdec hA hO hW hmem hidx hshort,
    by decide⟩

theorem C8_witness :
    GetLetyInfo ["addresses=\x7b12 97\x7d", "offsets=\x7b1\x7d", "window=\x7b3 4\x7d"] 97 =
      Except.error PyErr.indexError :=
  C8_short_arrays_raise_index_error.1 _ 97
    [("addresses", PyVal.intList [12, 97]), ("offsets", PyVal.intList [1]),
      ("window", PyVal.intList [3, 4])]
    [12, 97] [1] [3, 4] 1
    (by decide) (by decide) (by decide) (by decide) (by decide) (by decide)
    (Or.inl (by decide))

/-- C2: on strings with balanced, non-nested braces the tokenizer
splits exactly at the delimiter occurrences outside braces (the
depth-counting specification `specSplit`) and nowhere inside braces;
in particular on the spec's example. -/
theorem C2_tokenize_splits_outside_braces_only :
    (∀ (s : String) (d : Char), balNN 0 s.data = true →
        GetT3RequestInfo s d = specSplit s d) ∧
    GetT3RequestInfo "a=1 b=\x7b2 3 4\x7d c=5" ' ' = ["a=1", "b=\x7b2 3 4\x7d", "c=5"] := by
  constructor
  · intro s d h
    exact tokenizeGo_eq_specSplitGo d s.data [] [] 0 (by omega) h
  · decide

theorem C2_witness :
    balNN 0 ("a=1 b=\x7b2 3 4\x7d c=5").data = true ∧
    GetT3RequestInfo "a=1 b=\x7b2 3 4\x7d c=5" ' ' =
      specSplit "a=1 b=\x7b2 3 4\x7d c=5" ' ' :=
  ⟨by decide, C2_tokenize_splits_outside_braces_only.1 _ ' ' (by decide)⟩

/-- C6: outside braces, two consecutive delimiters emit the completed
token followed by a preserved empty token, while a string ending
exactly at a delimiter flushes the pending buffer and emits no extra
trailing empty token. -/
theorem C6_empty_tokens_kept_no_trailing :
    (∀ (d : Char) (sep : List String) (entry rest : List Char),
        ¬ (d = '{') → ¬ (d = '}') →
        tokenizeGo d (d :: d :: rest) sep entry false =
          tokenizeGo d rest (sep ++ [String.mk entry, ""]) [] false) ∧
    (∀ (d : Char) (sep : List String) (entry : List Char),
        ¬ (d = '{') → ¬ (d = '}') →
        tokenizeGo d [d] sep entry false = sep ++ [String.mk entry]) ∧
    GetT3RequestInfo "a  b" ' ' = ["a", "", "b"] ∧
    GetT3RequestInfo "a b " ' ' = ["a", "b"] := by
  refine ⟨?_, ?_, by decide, by decide⟩
  · intro d sep entry rest h1 h2
    simp only [tokenizeGo, if_neg h1, if_neg h2]
    rw [if_pos ⟨trivial, trivial⟩, if_pos ⟨trivial, trivial⟩]
    simp
  · intro d sep entry h1 h2
    simp only [tokenizeGo, if_neg h1, if_neg h2]
    rw [if_pos ⟨trivial, trivial⟩]
    simp [tokenizeGo]

theorem C6_witness :
    tokenizeGo ' ' [' ', ' ', 'b'] [] ['a'] false =
      tokenizeGo ' ' ['b'] ["a", ""] [] false ∧
    tokenizeGo ' ' [' '] ["x"] ['a'] false = ["x", "a"] :=
  ⟨C6_empty_tokens_kept_no_trailing.1 ' ' [] ['a'] ['b'] (by decide) (by decide),
    C6_empty_tokens_kept_no_trailing.2.1 ' ' ["x"] ['a'] (by decide) (by decide)⟩

/-- C7: once the inside-brace flag is true and no later closing brace
occurs, no delimiter splits the rest of the string: everything left is
appended to the pending token, with no error; in particular an
unmatched opening brace disables splitting for the remainder. -/
theorem C7_unmatched_brace_disables_splitting :
    (∀ (d : Char) (cs : List Char) (sep : List String) (entry : List Char),
        '}' ∉ cs →
        tokenizeGo d cs sep entry true =
          (if (entry ++ cs).isEmpty then sep else sep ++ [String.mk (entry ++ cs)])) ∧
    GetT3RequestInfo "a \x7bb c d" ' ' = ["a", "\x7bb c d"] ∧
    GetT3RequestInfo "a \x7bb c\x7d d e" ' ' = ["a", "\x7bb c\x7d", "d", "e"] :=
  ⟨fun d cs sep entry h => tokenizeGo_inside_no_close d cs sep entry h,
    by decide, by decide⟩

theorem C7_witness :
    tokenizeGo ' ' ['b', ' ', 'c'] ["a"] ['{'] true = ["a", "\x7bb c"] :=
  C7_unmatched_brace_disables_splitting.1 ' ' ['b', ' ', 'c'] ["a"] ['{'] (by decide)

/-- C4 fails as stated: the decoder does split on the first `=` only,
but the key placed in the mapping is the raw (untrimmed) left side.
On the token `"\tk=5"` the mapping key is `"\tk"`, while the trimmed
left side would be `"k"`; no entry is stored under `"k"`. -/
theorem C4_counterexample :
    OrganizeT3Info ["\tk=5"] = Except.ok [("\tk", PyVal.int 5)] ∧
    pyStripStr "\tk" = "k" ∧
    List.lookup "k" [("\tk", PyVal.int 5)] = none ∧
    ¬ (("\tk" : String) = "k") := by
  refine ⟨by decide, by decide, by decide, by decide⟩

/-- C4 (amended): for every token containing at least one `=`, the
decoder splits the token on the first occurrence of `=` only, and the
key placed in the mapping is the untrimmed left side of that split
(only the value side is stripped). -/
theorem C4_amended_first_eq_key_untrimmed :
    ∀ (info : List (String × PyVal)) (pre post : List Char), '=' ∉ pre →
      organizeStep info (String.mk (pre ++ '=' :: post)) =
        (decodeValue (pyStrip post)).map (fun v => dictInsert info (String.mk pre) v) := by
  intro info pre post h
  simp only [organizeStep, splitFirstEq_append pre post h]

theorem C4_witness :
    organizeStep [] (String.mk (['\t', 'k'] ++ '=' :: ['5'])) =
      (decodeValue (pyStrip ['5'])).map (fun v => dictInsert [] (String.mk ['\t', 'k']) v) :=
  C4_amended_first_eq_key_untrimmed [] ['\t', 'k'] ['5'] (by decide)

set_option maxRecDepth 100000 in
/-- C5: a token value that is neither brace-enclosed nor
quote-enclosed is parsed as a double-precision float (the exact literal
value correctly rounded to binary64) and, when finite, truncated toward
zero to an integer, and the malformed-number error is raised exactly
when the float parse fails; in particular `x=2.3e-8` decodes to `0`,
`x=5` to `5`, `x=-2.9` to `-2`, a 17-digit literal shows the double
rounding, `x=1_0` decodes to `10`, `x=1e400` overflows to infinity and
aborts with an overflow error, and `x=nan` aborts with a value
error. -/
theorem C5_float_then_truncate :
    (∀ v : List Char,
        (headIs '{' v && lastIs '}' v) = false →
        (headIs '"' v && lastIs '"' v) = false →
        (∀ m e, parsePyFloat v = some (PyFloat.finite m e) →
          decodeValue v = Except.ok (PyVal.int (pyTrunc m e))) ∧
        (parsePyFloat v = none →
          decodeValue v = Except.error PyErr.malformedNumber) ∧
        (decodeValue v = Except.error PyErr.malformedNumber ↔ parsePyFloat v = none)) ∧
    OrganizeT3Info ["x=2.3e-8"] = Except.ok [("x", PyVal.int 0)] ∧
    OrganizeT3Info ["x=5"] = Except.ok [("x", PyVal.int 5)] ∧
    OrganizeT3Info ["x=-2.9"] = Except.ok [("x", PyVal.int (-2))] ∧
    OrganizeT3Info ["x=12345678901234567"] = Except.ok [("x", PyVal.int 12345678901234568)] ∧
    OrganizeT3Info ["x=1_0"] = Except.ok [("x", PyVal.int 10)] ∧
    OrganizeT3Info ["x=1e400"] = Except.error PyErr.overflowError ∧
    OrganizeT3Info ["x=nan"] = Except.error PyErr.valueError ∧
    OrganizeT3Info ["x=09a"] = Except.error PyErr.malformedNumber := by
  refine ⟨?_, by decide, by decide, by decide, by decide, by decide, by decide, by decide,
    by decide⟩
  intro v h1 h2
  have c1 : ¬ ((headIs '{' v && lastIs '}' v) = true) := by
    rw [h1]
    exact Bool.false_ne_true
  have c2 : ¬ ((headIs '"' v && lastIs '"' v) = true) := by
    rw [h2]
    exact Bool.false_ne_true
  have hdv : decodeValue v =
      (match parsePyFloat v with
        | some f => (pyIntOfFloat f).map PyVal.int
        | none => Except.error PyErr.malformedNumber) := by
    rw [decodeValue, if_neg c1, if_neg c2]
  refine ⟨fun m e hme => by rw [hdv, hme]; rfl, fun hn => by rw [hdv, hn], ?_⟩
  constructor
  · intro hmal
    cases hp : parsePyFloat v with
    | none => rfl
    | some f =>
      rw [hdv, hp] at hmal
      cases f with
      | finite m e => exact absurd hmal (by simp [pyIntOfFloat, Except.map])
      | inf s => exact absurd hmal (by simp [pyIntOfFloat, Except.map])
      | nan => exact absurd hmal (by simp [pyIntOfFloat, Except.map])
  · intro hn
    rw [hdv, hn]

theorem C5_witness :
    decodeValue ['5'] = Except.ok (PyVal.int (pyTrunc 5629499534213120 (-50))) :=
  ((C5_float_then_truncate.1 ['5'] (by decide) (by decide)).1 5629499534213120 (-50)
    (by decide))

/-- C9: a brace-enclosed value whose interior is empty or all
whitespace does not decode to an empty integer list: splitting the
stripped-empty interior yields one empty piece whose integer parse
fails, so the decoder raises the malformed-list error. -/
theorem C9_empty_braces_error :
    (∀ w : List Char, w.all isPySpace = true →
        decodeValue ('{' :: (w ++ ['}'])) = Except.error PyErr.malformedList) ∧
    OrganizeT3Info ["x=\x7b\x7d"] = Except.error PyErr.malformedList ∧
    OrganizeT3Info ["x=\x7b \x7d"] = Except.error PyErr.malformedList := by
  refine ⟨?_, by decide, by decide⟩
  intro w hw
  have hg : ('{' :: (w ++ ['}'])).getLast? = some '}' := List.getLast?_concat ('{' :: w)
  have hco : (headIs '{' ('{' :: (w ++ ['}'])) && lastIs '}' ('{' :: (w ++ ['}']))) = true := by
    rw [show headIs '{' ('{' :: (w ++ ['}'])) = true from rfl]
    rw [lastIs, hg]
    rfl
  have hstrip : pyStrip ((('{' :: (w ++ ['}'])).drop 1).dropLast) = [] := by
    have hd : (('{' :: (w ++ ['}'])).drop 1).dropLast = w := List.dropLast_concat
    rw [hd]
    exact pyStrip_of_all_space w hw
  rw [decodeValue, if_pos hco, hstrip]
  decide

theorem C9_witness :
    decodeValue ('{' :: ([' '] ++ ['}'])) = Except.error PyErr.malformedList :=
  C9_empty_braces_error.1 [' '] (by decide)

/-- C1: for an eligible trigger line, the pipeline's selection locates
the target station ID by value equality inside the addresses sequence
extracted from the `addresses=` token; when the target ID is absent the
line is skipped (`Except.ok none`), not an error. -/
theorem C1_absent_target_is_skipped (line : String) (LetyID : Int)
    (f0 f1 f2 f3 f4 f5 ae : String) (p0 second : List Char) (prest : List (List Char))
    (hcols : pySplitStr (pyStripStr line) '|' = [f0, f1, f2, f3, f4, f5])
    (hik : ([f0, f1, f2, f3, f4, f5].contains "IkT3") = true)
    (hfind : (GetT3RequestInfo f4 ' ').find? (fun s => pyStarts s "addresses=") = some ae)
    (hne : ¬ (ae = ""))
    (hsplit : pySplitCh '=' ae.data = p0 :: second :: prest)
    (habs : (((pySplitCh ' ' (pyStripSet ['{', '}'] second)).map String.mk).contains
      (toString LetyID)) = false) :
    processLine line LetyID = Except.ok none := by
  simp only [processLine, hcols, hik, hfind, Option.getD_some, if_neg hne, hsplit, habs]
  simp

/-- C10: an eligible trigger line whose tokenized sub-record contains
no token starting with `addresses=` is skipped silently: no output
record, no error. -/
theorem C10_missing_addresses_token_skips (line : String) (LetyID : Int)
    (f0 f1 f2 f3 f4 f5 : String)
    (hcols : pySplitStr (pyStripStr line) '|' = [f0, f1, f2, f3, f4, f5])
    (hik : ([f0, f1, f2, f3, f4, f5].contains "IkT3") = true)
    (hnone : ∀ t ∈ GetT3RequestInfo f4 ' ', pyStarts t "addresses=" = false) :
    processLine line LetyID = Except.ok none := by
  have hfind : (GetT3RequestInfo f4 ' ').find? (fun s => pyStarts s "addresses=") = none := by
    rw [List.find?_eq_none]
    intro x hx
    simp [hnone x hx]
  simp only [processLine, hcols, hik, hfind, Option.getD_none]
  simp

theorem C1_witness :
    processLine "h1|IkT3|h3|h4|addresses=\x7b12 33\x7d refSecond=1 refuSecond=2|h6" 97 =
      Except.ok none :=
  C1_absent_target_is_skipped _ 97 "h1" "IkT3" "h3" "h4"
    "addresses=\x7b12 33\x7d refSecond=1 refuSecond=2" "h6" "addresses=\x7b12 33\x7d"
    ("addresses".data) ("\x7b12 33\x7d".data) []
    (by decide) (by decide) (by decide) (by decide) (by decide) (by decide)

theorem C10_witness :
    processLine "h1|IkT3|h3|h4|foo=1 bar=2|h6" 97 = Except.ok none :=
  C10_missing_addresses_token_skips _ 97 "h1" "IkT3" "h3" "h4" "foo=1 bar=2" "h6"
    (by decide) (by decide) (by decide)
